import Mathlib

/-!
Verification of the data-loading and derived-aggregate pipeline of the
petroleum-sales dashboard (`src/streamlit_app.py`).

The embedding models the pandas pipeline over explicit lists:
  * a raw spreadsheet is a list of rows (an optional region label plus one
    cell per year column) together with the year-column labels;
  * `load_data` follows the source line by line: strip the column labels,
    drop rows whose label matches the regex `Region|Total|REGION|ALL INDIA`
    (`na=False` keeps unlabeled rows at that stage), melt to long form,
    parse the year from the first four characters of each column label
    (`astype(int)` makes an unparseable label fatal), coerce sales with
    `errors="coerce"`, and drop rows containing a missing value;
  * the aggregate views (`top_k`, `bottom_k`, the summary scalars, and the
    pivot / `pct_change` growth series) are modelled over the resulting
    record list.  `nlargest`/`nsmallest` with the default `keep="first"`
    are stable selections, modelled as a stable insertion sort followed by
    `take`; `pct_change` uses its default forward-fill of interior missing
    values; `pivot` fails when two records share a (region, year) key.

Sales quantities are rationals, and a cell is either a value pandas can
coerce to a number or one it cannot (which `to_numeric` turns into NaN).
String operations are modelled structurally on `List Char` so that all
definitions evaluate by kernel reduction.
-/

namespace EconData

/-! ## Character-level string helpers -/

/-- A decimal digit. -/
def isDigitChar (c : Char) : Bool := 48 ≤ c.toNat && c.toNat ≤ 57

/-- Accumulate the value of a run of decimal digits; `none` on a non-digit. -/
def digitsValAux : List Char → Nat → Option Nat
  | [], acc => some acc
  | c :: cs, acc =>
    if isDigitChar c then digitsValAux cs (acc * 10 + (c.toNat - 48)) else none

/-- The numeric value of a nonempty all-digit string, as Python `int` reads it. -/
def digitsVal : List Char → Option Nat
  | [] => none
  | c :: cs => digitsValAux (c :: cs) 0

/-- Python `int(...)` on a trimmed string: optional minus sign, then digits. -/
def parseIntChars : List Char → Option Int
  | '-' :: cs => (digitsVal cs).map (fun n => -(n : Int))
  | cs => (digitsVal cs).map (fun n => (n : Int))

/-- `str.strip()`: whitespace removed from both ends. -/
def trimChars (cs : List Char) : List Char :=
  ((cs.dropWhile Char.isWhitespace).reverse.dropWhile Char.isWhitespace).reverse

/-- Does `s` start with `pat`? -/
def startsWithSeq : List Char → List Char → Bool
  | [], _ => true
  | _ :: _, [] => false
  | p :: ps, c :: cs => p == c && startsWithSeq ps cs

/-- Does `pat` occur as a contiguous substring of `s`?  This is what the
regex `str.contains` check amounts to for a literal pattern. -/
def containsSeq (pat : List Char) : List Char → Bool
  | [] => startsWithSeq pat []
  | c :: cs => startsWithSeq pat (c :: cs) || containsSeq pat cs

/-- Lower-case a string, character by character. -/
def lowerChars (cs : List Char) : List Char := cs.map Char.toLower

/-! ## Data model -/

/-- One spreadsheet cell of a year column: either a value pandas coerces to
the number `q`, or one it cannot coerce (text, blank, …), which
`pd.to_numeric(..., errors="coerce")` turns into NaN. -/
inductive RawCell where
  | num (q : ℚ)
  | na
deriving DecidableEq

/-- One spreadsheet row: the `STATE/UT` label (`none` models a NaN label)
and one cell per year column. -/
structure RawRow where
  label : Option String
  cells : List RawCell
deriving DecidableEq

/-- The raw wide table: the year-column labels and the rows. -/
structure RawTable where
  yearLabels : List String
  rows : List RawRow
deriving DecidableEq

/-- One record of the long table produced by the loader. -/
structure Record where
  region : String
  year : Int
  sales : ℚ
deriving DecidableEq

/-! ## Loader (`load_data`, src lines 10–36) -/

/-- Line 18's test on a region label: the regex
`'Region|Total|REGION|ALL INDIA'` matches, i.e. one of the four literal
patterns occurs as a (case-sensitive) substring. -/
def matchesAggregateRow (s : String) : Bool :=
  containsSeq "Region".data s.data || containsSeq "Total".data s.data ||
    containsSeq "REGION".data s.data || containsSeq "ALL INDIA".data s.data

/-- Line 18's row filter: `~df['STATE/UT'].str.contains(..., na=False)`.
A NaN label makes `str.contains` return `False` (because of `na=False`),
so the row is kept at this stage. -/
def keepRow (r : RawRow) : Bool :=
  match r.label with
  | none => true
  | some s => !(matchesAggregateRow s)

/-- One row of the melted frame (lines 23–26): the region label, the year
column the value came from, and the cell value. -/
structure MeltedRow where
  label : Option String
  yearLabel : String
  value : RawCell
deriving DecidableEq

/-- `df.melt` (lines 23–26): one output row per (year column, input row)
pair, year-major, preserving row order within each year block. -/
def melt (yearLabels : List String) (rows : List RawRow) : List MeltedRow :=
  yearLabels.enum.flatMap fun ji =>
    rows.map fun r => ⟨r.label, ji.2, r.cells.getD ji.1 RawCell.na⟩

/-- Line 27: `df_melted['Year'].str[:4].astype(int)` on one label. -/
def parseYear (s : String) : Option Int := parseIntChars (s.data.take 4)

/-- Line 31: `pd.to_numeric(..., errors='coerce')` on one cell. -/
def toNumeric : RawCell → Option ℚ
  | .num q => some q
  | .na => none

/-- Line 15: `df.columns.str.strip()`. -/
def trimmedCols (t : RawTable) : List String :=
  t.yearLabels.map fun s => String.mk (trimChars s.data)

/-- Line 18 applied to the whole table. -/
def keptRows (t : RawTable) : List RawRow := t.rows.filter keepRow

/-- The melted frame of a table, after the column strip and row filter. -/
def meltedOf (t : RawTable) : List MeltedRow := melt (trimmedCols t) (keptRows t)

/-- One melted row after year parsing and sales coercion: the record it
yields, or `none` if `dropna()` drops it (NaN label or NaN sales). -/
def recordOf (m : MeltedRow) : Option Record :=
  match m.label, parseYear m.yearLabel, toNumeric m.value with
  | some region, some y, some s => some ⟨region, y, s⟩
  | _, _, _ => none

/-- Lines 10–36.  Strip the column labels, filter aggregate rows, melt,
parse years (any unparseable year label aborts the load, as `astype(int)`
raises), coerce sales, and drop every melted row with a missing value in
any field (`dropna()` drops on a NaN label or NaN sales). -/
def load_data (t : RawTable) : Option (List Record) :=
  if (meltedOf t).all (fun m => (parseYear m.yearLabel).isSome) then
    some ((meltedOf t).filterMap recordOf)
  else none

/-! ## Aggregator -/

/-- Descending-by-sales order used by `nlargest(k, 'Sales')`. -/
def salesDesc (a b : Record) : Prop := b.sales ≤ a.sales

instance : DecidableRel salesDesc :=
  fun a b => inferInstanceAs (Decidable (b.sales ≤ a.sales))

instance : IsTotal Record salesDesc := ⟨fun a b => le_total b.sales a.sales⟩

instance : IsTrans Record salesDesc := ⟨fun _ _ _ h1 h2 => le_trans h2 h1⟩

/-- Ascending-by-sales order used by `nsmallest(k, 'Sales')`. -/
def salesAsc (a b : Record) : Prop := a.sales ≤ b.sales

instance : DecidableRel salesAsc :=
  fun a b => inferInstanceAs (Decidable (a.sales ≤ b.sales))

instance : IsTotal Record salesAsc := ⟨fun a b => le_total a.sales b.sales⟩

instance : IsTrans Record salesAsc := ⟨fun _ _ _ h1 h2 => le_trans h1 h2⟩

instance : Std.Antisymm (fun a b : ℚ => a ≤ b) where
  antisymm h1 h2 := le_antisymm h1 h2

/-- Lines 82/96: `year_data = df[df['Year'] == selected_year]`. -/
def year_data (df : List Record) (y : Int) : List Record :=
  df.filter (fun r => r.year == y)

/-- Line 83: `year_data.nlargest(k, 'Sales')` with the default
`keep='first'`: the first `k` rows of the stable descending sort. -/
def top_k (df : List Record) (y : Int) (k : Nat) : List Record :=
  (List.insertionSort salesDesc (year_data df y)).take k

/-- Line 97: `year_data.nsmallest(k, 'Sales')` with `keep='first'`. -/
def bottom_k (df : List Record) (y : Int) (k : Nat) : List Record :=
  (List.insertionSort salesAsc (year_data df y)).take k

/-- The distinct regions having data in year `y`. -/
def regionsWithData (df : List Record) (y : Int) : List String :=
  ((year_data df y).map Record.region).dedup

/-- Line 116: `year_data[year_data['STATE/UT'] == selected_state]['Sales']
.values[0]`; `none` models the `IndexError` raised when the selection is
empty. -/
def current_year_sales (df : List Record) (y : Int) (state : String) : Option ℚ :=
  (((year_data df y).filter (fun r => r.region == state)).map Record.sales).head?

/-- `df[df['STATE/UT'] == selected_state]['Sales']` (lines 117–119). -/
def stateSales (df : List Record) (state : String) : List ℚ :=
  (df.filter (fun r => r.region == state)).map Record.sales

/-- Line 117: `.mean()`; `none` models the NaN of an empty mean. -/
def avg_sales (df : List Record) (state : String) : Option ℚ :=
  match stateSales df state with
  | [] => none
  | l => some (l.sum / l.length)

/-- Line 118: `.max()`; `none` models the NaN of an empty max. -/
def max_sales (df : List Record) (state : String) : Option ℚ :=
  (stateSales df state).max?

/-- Line 119: `.min()`. -/
def min_sales (df : List Record) (state : String) : Option ℚ :=
  (stateSales df state).min?

/-! ## Year-over-year growth (lines 129–131) -/

/-- The (region, year) key `pivot` indexes by. -/
def recKey (r : Record) : String × Int := (r.region, r.year)

/-- `pivot` raises `ValueError: Index contains duplicate entries` exactly
when two records share a (region, year) key. -/
def pivotOk (df : List Record) : Bool := decide (df.map recKey).Nodup

/-- The pivot row index: the distinct years of the table, ascending
(`pivot` sorts its index). -/
def tableYears (df : List Record) : List Int :=
  List.insertionSort (fun a b : Int => a ≤ b) (df.map Record.year).dedup

/-- One pivot cell: the sales of `state` in year `y`, NaN if absent. -/
def lookupSales (df : List Record) (state : String) (y : Int) : Option ℚ :=
  (df.find? (fun r => r.region == state && r.year == y)).map Record.sales

/-- The pivot column of one state, paired with the year index. -/
def pivotCol (df : List Record) (state : String) : List (Int × Option ℚ) :=
  (tableYears df).map fun y => (y, lookupSales df state y)

/-- Forward-fill with carried last observation (`fill_method='pad'`, the
`pct_change` default): a missing value takes the previous present value;
leading missing values stay missing. -/
def ffillAux : Option ℚ → List (Option ℚ) → List (Option ℚ)
  | _, [] => []
  | last, none :: rest => last :: ffillAux last rest
  | _, some q :: rest => some q :: ffillAux (some q) rest

/-- Forward-fill a column. -/
def ffill (v : List (Option ℚ)) : List (Option ℚ) := ffillAux none v

/-- Consecutive relative changes of an (already filled) column, from the
second entry on: `(cur - prev) / prev`, missing when either side is. -/
def pctAux : Option ℚ → List (Option ℚ) → List (Option ℚ)
  | _, [] => []
  | prev, cur :: rest =>
    (match prev, cur with
     | some p, some c => some ((c - p) / p)
     | _, _ => none) :: pctAux cur rest

/-- Relative changes of a filled column; the first entry has no
predecessor and is missing. -/
def pctOfFilled : List (Option ℚ) → List (Option ℚ)
  | [] => []
  | x :: rest => none :: pctAux x rest

/-- Line 130: `pivot_df.pct_change()` on one column, with the default
forward-fill of missing values. -/
def pct_change (v : List (Option ℚ)) : List (Option ℚ) := pctOfFilled (ffill v)

/-- Lines 130–131 on one pivot column: `pct_change() * 100`, then
`dropna()`, keeping each surviving entry paired with its year. -/
def growthSeries (col : List (Int × Option ℚ)) : List (Int × ℚ) :=
  ((col.map Prod.fst).zip
      ((pct_change (col.map Prod.snd)).map (Option.map (fun g => g * 100)))).filterMap
    fun p => p.2.map (fun g => (p.1, g))

/-- Lines 129–131: pivot the long table on Year × state (failing on
duplicate keys), take one state's column, apply `pct_change() * 100`, and
drop the missing entries, keeping each one paired with its year. -/
def selected_state_growth (df : List Record) (state : String) :
    Option (List (Int × ℚ)) :=
  if pivotOk df then some (growthSeries (pivotCol df state)) else none

/-- Consecutive relative changes of a present-value series with head `p`. -/
def diffList : ℚ → List ℚ → List ℚ
  | _, [] => []
  | p, c :: cs => (c - p) / p :: diffList c cs

/-! ## Spec-side definitions

These follow the specification's words, for comparison with the
definitions above (which follow the code). -/

/-- The specification's row-exclusion predicate: the label case-insensitively
contains "region" or "total", or case-insensitively equals "all india". -/
def ciMatchesBanned (s : String) : Bool :=
  containsSeq "region".data (lowerChars s.data) ||
    containsSeq "total".data (lowerChars s.data) ||
      lowerChars s.data == "all india".data

/-- A region's series as the specification describes it: the region's
records, as (year, sales) pairs, sorted ascending by year. -/
def regionSeries (df : List Record) (state : String) : List (Int × ℚ) :=
  List.insertionSort (fun a b : Int × ℚ => a.1 ≤ b.1)
    ((df.filter (fun r => r.region == state)).map fun r => (r.year, r.sales))

/-- The specification's year-over-year growth of a year-ordered series:
for each entry with a predecessor, `(year, (cur - prev) / prev * 100)`;
the first entry is omitted. -/
def yoyOf : List (Int × ℚ) → List (Int × ℚ)
  | (_, s1) :: (y2, s2) :: rest => (y2, (s2 - s1) / s1 * 100) :: yoyOf ((y2, s2) :: rest)
  | _ => []

instance : DecidableRel (fun a b : Int × ℚ => a.1 ≤ b.1) :=
  fun a b => inferInstanceAs (Decidable (a.1 ≤ b.1))

/-! ## Concrete tables used as test inputs -/

/-- The specification's worked example: one `Goa` row with sales 500 and
450 and one blank cell. -/
def goaTable : RawTable :=
  ⟨["2014-15", "2015-16", "2016-17"],
   [⟨some "Goa", [.num 500, .num 450, .na]⟩]⟩

/-- The long table the worked example loads to. -/
def goaDf : List Record := [⟨"Goa", 2014, 500⟩, ⟨"Goa", 2015, 450⟩]

/-- A table whose single row is labelled lowercase `"total"`. -/
def lcTotalTable : RawTable := ⟨["2015-16"], [⟨some "total", [.num 100]⟩]⟩

/-- A long table where region `A` has a gap: sales in 2015 and 2017 but
not 2016, while `B` covers all three years. -/
def gapDfA : List Record :=
  [⟨"A", 2015, 100⟩, ⟨"A", 2017, 150⟩,
   ⟨"B", 2015, 10⟩, ⟨"B", 2016, 20⟩, ⟨"B", 2017, 30⟩]

/-- A second gap table (sales 200 then 300 for `A`). -/
def gapDfB : List Record :=
  [⟨"A", 2015, 200⟩, ⟨"A", 2017, 300⟩,
   ⟨"B", 2015, 10⟩, ⟨"B", 2016, 20⟩, ⟨"B", 2017, 30⟩]

/-- Two chronologically adjacent years with sales 100 then 150. -/
def adjDf : List Record := [⟨"X", 2015, 100⟩, ⟨"X", 2016, 150⟩]

/-- A table with a sales tie (A and C both at 5 in 2015). -/
def tieDf : List Record :=
  [⟨"A", 2015, 5⟩, ⟨"B", 2015, 7⟩, ⟨"C", 2015, 5⟩, ⟨"A", 2014, 2⟩]

/-- A wide table with an unparseable sales cell for Goa in 2015-16. -/
def naCellTable : RawTable :=
  ⟨["2014-15", "2015-16"],
   [⟨some "Goa", [.num 500, .na]⟩, ⟨some "Kerala", [.num 30, .num 40]⟩]⟩

/-- A long table with a duplicated (region, year) key. -/
def dupDf : List Record := [⟨"A", 2015, 1⟩, ⟨"A", 2015, 2⟩]

/-! ## Provenance of loaded records -/

theorem mem_melt {yearLabels : List String} {rows : List RawRow} {m : MeltedRow}
    (h : m ∈ melt yearLabels rows) :
    ∃ j, j < yearLabels.length ∧ ∃ row ∈ rows,
      m = ⟨row.label, yearLabels.getD j "", row.cells.getD j RawCell.na⟩ := by
  simp only [melt, List.mem_flatMap, List.mem_map] at h
  obtain ⟨⟨j, lbl⟩, hj, r, hr, rfl⟩ := h
  obtain ⟨hjl, hlbl⟩ := List.mem_enum hj
  refine ⟨j, hjl, r, hr, ?_⟩
  simp [hlbl, List.getD_eq_getElem?_getD, List.getElem?_eq_getElem hjl]

theorem recordOf_eq_some {m : MeltedRow} {r : Record} (h : recordOf m = some r) :
    m.label = some r.region ∧ parseYear m.yearLabel = some r.year ∧
      toNumeric m.value = some r.sales := by
  unfold recordOf at h
  rcases hL : m.label with _ | region <;> rw [hL] at h
  · simp at h
  rcases hY : parseYear m.yearLabel with _ | y <;> rw [hY] at h
  · simp at h
  rcases hS : toNumeric m.value with _ | s <;> rw [hS] at h
  · simp at h
  simp only [Option.some.injEq] at h
  subst h
  exact ⟨rfl, rfl, rfl⟩

theorem load_data_provenance {t : RawTable} {df : List Record} {r : Record}
    (hl : load_data t = some df) (hr : r ∈ df) :
    ∃ row ∈ t.rows, keepRow row = true ∧ row.label = some r.region ∧
      ∃ j, j < t.yearLabels.length ∧
        parseYear (String.mk (trimChars (t.yearLabels.getD j "").data)) = some r.year ∧
        toNumeric (row.cells.getD j RawCell.na) = some r.sales := by
  unfold load_data at hl
  split at hl
  case isFalse => exact absurd hl (by simp)
  case isTrue hall =>
    injection hl with hl
    subst hl
    obtain ⟨m, hm, hmatch⟩ := List.mem_filterMap.mp hr
    obtain ⟨j, hj, row, hrow, rfl⟩ := mem_melt hm
    have hjlen : j < t.yearLabels.length := by
      simpa [trimmedCols] using hj
    obtain ⟨hrows, hkeep⟩ := List.mem_filter.mp hrow
    obtain ⟨hreg, hyear, hsales⟩ := recordOf_eq_some hmatch
    refine ⟨row, hrows, hkeep, hreg, j, hjlen, ?_, hsales⟩
    have hmap : (trimmedCols t).getD j ""
        = String.mk (trimChars (t.yearLabels.getD j "").data) := by
      rw [trimmedCols, List.getD_eq_getElem?_getD, List.getD_eq_getElem?_getD,
        List.getElem?_map, List.getElem?_eq_getElem hjlen]
      rfl
    rw [← hmap]
    exact hyear

theorem load_data_eq_filterMap {t : RawTable} {df : List Record}
    (hl : load_data t = some df) : df = (meltedOf t).filterMap recordOf := by
  unfold load_data at hl
  split at hl
  case isTrue => exact (Option.some.inj hl).symm
  case isFalse => exact absurd hl (by simp)

/-! ## Claims C1, C2, C3, C9 -/

/-- C1 as stated is false on the code: the line-18 regex is
case-sensitive, so a row labelled lowercase `"total"` — which the claim
says is filtered out — survives the loader with a label that
case-insensitively contains "total". -/
theorem c1_lowercase_total_survives :
    ((load_data lcTotalTable).getD []).any (fun r => ciMatchesBanned r.region) = true := by
  decide

/-- C1 amended: the loader's filter is case-sensitive.  No record
surviving the loader has a region label containing `"Region"`, `"Total"`,
`"REGION"` or `"ALL INDIA"` as a case-sensitive substring; labels differing
only in case (such as lowercase `"total"`) are not filtered. -/
theorem c1_surviving_labels_never_match_filter (t : RawTable) (df : List Record)
    (r : Record) (hl : load_data t = some df) (hr : r ∈ df) :
    matchesAggregateRow r.region = false := by
  obtain ⟨row, hrow, hkeep, hlab, -⟩ := load_data_provenance hl hr
  unfold keepRow at hkeep
  rw [hlab] at hkeep
  simpa using hkeep

theorem c1_witness : matchesAggregateRow "Goa" = false :=
  c1_surviving_labels_never_match_filter goaTable goaDf ⟨"Goa", 2014, 500⟩
    (by decide) (by decide)

/-- C2: every loaded record's `year` is the integer parsed from the first
four characters of the record's own source year-column label: the melted
row that produced the record (the one `recordOf` maps to it, supplying its
region, year and sales together) carries the stripped label of one year
column of the table, and that very label parses to the record's year. -/
theorem c2_year_from_records_own_column (t : RawTable) (df : List Record)
    (r : Record) (hl : load_data t = some df) (hr : r ∈ df) :
    ∃ m ∈ meltedOf t, recordOf m = some r ∧
      parseYear m.yearLabel = some r.year ∧
      ∃ j, j < t.yearLabels.length ∧
        m.yearLabel = String.mk (trimChars (t.yearLabels.getD j "").data) := by
  rw [load_data_eq_filterMap hl] at hr
  obtain ⟨m, hm, hrec⟩ := List.mem_filterMap.mp hr
  obtain ⟨-, hyear, -⟩ := recordOf_eq_some hrec
  obtain ⟨j, hj, row, hrow, hmeq⟩ := mem_melt hm
  have hjlen : j < t.yearLabels.length := by simpa [trimmedCols] using hj
  refine ⟨m, hm, hrec, hyear, j, hjlen, ?_⟩
  have hmap : (trimmedCols t).getD j ""
      = String.mk (trimChars (t.yearLabels.getD j "").data) := by
    rw [trimmedCols, List.getD_eq_getElem?_getD, List.getD_eq_getElem?_getD,
      List.getElem?_map, List.getElem?_eq_getElem hjlen]
    rfl
  rw [hmeq]
  exact hmap

theorem c2_witness :
    ∃ m ∈ meltedOf goaTable, recordOf m = some (⟨"Goa", 2014, 500⟩ : Record) ∧
      parseYear m.yearLabel = some (2014 : Int) ∧
      ∃ j, j < goaTable.yearLabels.length ∧
        m.yearLabel = String.mk (trimChars (goaTable.yearLabels.getD j "").data) :=
  c2_year_from_records_own_column goaTable goaDf ⟨"Goa", 2014, 500⟩
    (by decide) (by decide)

/-- C9: every loaded record originates from a row whose label is present
(`some`), a year column whose label parsed to an integer, and a cell that
coerced to a number — so a row with a missing region label contributes no
records, and no field of a surviving record is missing. -/
theorem c9_loaded_record_fields_all_present (t : RawTable) (df : List Record)
    (r : Record) (hl : load_data t = some df) (hr : r ∈ df) :
    ∃ row ∈ t.rows, row.label = some r.region ∧
      ∃ j, j < t.yearLabels.length ∧
        parseYear (String.mk (trimChars (t.yearLabels.getD j "").data)) = some r.year ∧
        toNumeric (row.cells.getD j RawCell.na) = some r.sales := by
  obtain ⟨row, hrow, -, hlab, j, hj, hy, hs⟩ := load_data_provenance hl hr
  exact ⟨row, hrow, hlab, j, hj, hy, hs⟩

theorem c9_witness :
    ∃ row ∈ goaTable.rows, row.label = some "Goa" ∧
      ∃ j, j < goaTable.yearLabels.length ∧
        parseYear (String.mk (trimChars (goaTable.yearLabels.getD j "").data))
          = some (2015 : Int) ∧
        toNumeric (row.cells.getD j RawCell.na) = some (450 : ℚ) :=
  c9_loaded_record_fields_all_present goaTable goaDf ⟨"Goa", 2015, 450⟩
    (by decide) (by decide)


/-- C3: (a) a cell that does not coerce to a number yields no record for
its (region, year) pair — given that the row labels and the parsed column
years identify the cell uniquely — and (b) a load can only fail because a
year label does not parse, never because of a cell's value. -/
theorem c3_unparseable_cell_dropped_not_fatal :
    (∀ (t : RawTable) (row : RawRow) (name : String) (j : Nat) (df : List Record),
      load_data t = some df → row ∈ t.rows → row.label = some name →
      toNumeric (row.cells.getD j RawCell.na) = none →
      (∀ row2 ∈ t.rows, row2.label = some name → row2 = row) →
      (∀ j2, j2 < t.yearLabels.length →
        parseYear (String.mk (trimChars (t.yearLabels.getD j2 "").data)) =
          parseYear (String.mk (trimChars (t.yearLabels.getD j "").data)) → j2 = j) →
      ∀ r ∈ df, ¬(r.region = name ∧
        some r.year = parseYear (String.mk (trimChars (t.yearLabels.getD j "").data)))) ∧
    (∀ t : RawTable, load_data t = none →
      ∃ lbl ∈ t.yearLabels, parseYear (String.mk (trimChars lbl.data)) = none) := by
  constructor
  · intro t row name j df hl hrow hname hcell huniqR huniqY r hr ⟨hreg, hyr⟩
    obtain ⟨row2, hrow2, -, hlab2, j2, hj2, hy2, hs2⟩ := load_data_provenance hl hr
    have hrow2eq : row2 = row := huniqR row2 hrow2 (by rw [hlab2, hreg])
    have hj2eq : j2 = j := huniqY j2 hj2 (by rw [hy2, hyr])
    rw [hrow2eq, hj2eq] at hs2
    rw [hcell] at hs2
    exact absurd hs2 (by simp)
  · intro t hl
    unfold load_data at hl
    split at hl
    case isTrue => exact absurd hl (by simp)
    case isFalse hall =>
      rw [List.all_eq_true] at hall
      push_neg at hall
      obtain ⟨m, hm, hnone⟩ := hall
      obtain ⟨j, hj, row, hrow, rfl⟩ := mem_melt hm
      have hjlen : j < t.yearLabels.length := by simpa [trimmedCols] using hj
      have hmap : (trimmedCols t).getD j ""
          = String.mk (trimChars (t.yearLabels.getD j "").data) := by
        rw [trimmedCols, List.getD_eq_getElem?_getD, List.getD_eq_getElem?_getD,
          List.getElem?_map, List.getElem?_eq_getElem hjlen]
        rfl
      refine ⟨t.yearLabels.getD j "", ?_, ?_⟩
      · rw [List.getD_eq_getElem?_getD, List.getElem?_eq_getElem hjlen]
        exact List.getElem_mem hjlen
      · rw [← hmap]
        simpa using hnone

theorem c3_witness :
    ∀ r ∈ (load_data naCellTable).getD [], ¬(r.region = "Goa" ∧
      some r.year = parseYear (String.mk
        (trimChars (naCellTable.yearLabels.getD 1 "").data))) :=
  c3_unparseable_cell_dropped_not_fatal.1 naCellTable ⟨some "Goa", [.num 500, .na]⟩
    "Goa" 1 ((load_data naCellTable).getD []) (by decide) (by decide) (by decide)
    (by decide) (by decide) (by decide)


/-! ## Claim C4: top-K and bottom-K -/

theorem filter_orderedInsert_pos {α : Type _} {r : α → α → Prop} [DecidableRel r]
    {p : α → Bool} {x : α} (hx : p x = true) (hall : ∀ y, p y = true → r x y)
    (l : List α) :
    (List.orderedInsert r x l).filter p = x :: l.filter p := by
  induction l with
  | nil => simp [List.orderedInsert, hx]
  | cons y ys ih =>
    by_cases hr : r x y
    · simp [List.orderedInsert, hr, List.filter_cons, hx]
    · have hpy : p y = false := by
        cases hpy : p y
        · rfl
        · exact absurd (hall y hpy) hr
      simp [List.orderedInsert, hr, List.filter_cons, hpy, ih]

theorem filter_orderedInsert_neg {α : Type _} {r : α → α → Prop} [DecidableRel r]
    {p : α → Bool} {x : α} (hx : p x = false) (l : List α) :
    (List.orderedInsert r x l).filter p = l.filter p := by
  induction l with
  | nil => simp [List.orderedInsert, hx]
  | cons y ys ih =>
    by_cases hr : r x y
    · simp [List.orderedInsert, hr, List.filter_cons, hx]
    · simp [List.orderedInsert, hr, List.filter_cons, ih]

/-- A stable sort leaves every class of mutually `r`-equivalent elements in
its original relative order. -/
theorem filter_insertionSort {α : Type _} {r : α → α → Prop} [DecidableRel r]
    {p : α → Bool} (hcls : ∀ a b, p a = true → p b = true → r a b) (l : List α) :
    (List.insertionSort r l).filter p = l.filter p := by
  induction l with
  | nil => rfl
  | cons x xs ih =>
    cases hx : p x
    · rw [List.insertionSort, filter_orderedInsert_neg hx, ih,
        List.filter_cons_of_neg (by simp [hx])]
    · rw [List.insertionSort, filter_orderedInsert_pos hx
        (fun y hy => hcls x y hx hy), ih, List.filter_cons_of_pos hx]

theorem year_data_regions_nodup {df : List Record} {y : Int}
    (hkeys : (df.map recKey).Nodup) :
    ((year_data df y).map Record.region).Nodup := by
  have hsub : (year_data df y).Sublist df := List.filter_sublist df
  have hkeys2 : ((year_data df y).map recKey).Nodup :=
    (hsub.map recKey).nodup hkeys
  have hnodup : (year_data df y).Nodup := hkeys2.of_map recKey
  refine hnodup.map_on ?_
  intro a ha b hb hab
  have hya : a.year = y := by
    have := (List.mem_filter.mp ha).2
    simpa [year_data] using (List.mem_filter.mp ha).2
  have hyb : b.year = y := by
    simpa [year_data] using (List.mem_filter.mp hb).2
  exact List.inj_on_of_nodup_map hkeys2 ha hb (by simp [recKey, hab, hya, hyb])

theorem length_year_data_eq_regions {df : List Record} {y : Int}
    (hkeys : (df.map recKey).Nodup) :
    (regionsWithData df y).length = (year_data df y).length := by
  rw [regionsWithData, List.dedup_eq_self.mpr (year_data_regions_nodup hkeys)]
  exact List.length_map _ _

/-- C4: top-K and bottom-K contain only records of the selected year, are
sorted descending / ascending by sales, have exactly
`min k (number of regions with data in year y)` entries, and break sales
ties by original row order (the stable sort leaves every sales class in
its original relative order). -/
theorem c4_top_bottom_k (df : List Record) (y : Int) (k : Nat)
    (hkeys : (df.map recKey).Nodup) :
    (∀ r ∈ top_k df y k, r.year = y) ∧ (∀ r ∈ bottom_k df y k, r.year = y) ∧
    List.Sorted salesDesc (top_k df y k) ∧ List.Sorted salesAsc (bottom_k df y k) ∧
    (top_k df y k).length = min k (regionsWithData df y).length ∧
    (bottom_k df y k).length = min k (regionsWithData df y).length ∧
    (∀ c : ℚ,
      (List.insertionSort salesDesc (year_data df y)).filter (fun r => r.sales == c)
        = (year_data df y).filter (fun r => r.sales == c)) ∧
    (∀ c : ℚ,
      (List.insertionSort salesAsc (year_data df y)).filter (fun r => r.sales == c)
        = (year_data df y).filter (fun r => r.sales == c)) := by
  have hmemtop : ∀ r ∈ top_k df y k, r ∈ year_data df y := by
    intro r hr
    have h1 : r ∈ List.insertionSort salesDesc (year_data df y) :=
      (List.take_sublist _ _).subset hr
    exact (List.perm_insertionSort salesDesc (year_data df y)).subset h1
  have hmembot : ∀ r ∈ bottom_k df y k, r ∈ year_data df y := by
    intro r hr
    have h1 : r ∈ List.insertionSort salesAsc (year_data df y) :=
      (List.take_sublist _ _).subset hr
    exact (List.perm_insertionSort salesAsc (year_data df y)).subset h1
  have hyear : ∀ r ∈ year_data df y, r.year = y := by
    intro r hr
    simpa [year_data] using (List.mem_filter.mp hr).2
  refine ⟨fun r hr => hyear r (hmemtop r hr), fun r hr => hyear r (hmembot r hr),
    ?_, ?_, ?_, ?_, ?_, ?_⟩
  · exact List.Pairwise.sublist (List.take_sublist _ _)
      (List.sorted_insertionSort salesDesc _)
  · exact List.Pairwise.sublist (List.take_sublist _ _)
      (List.sorted_insertionSort salesAsc _)
  · rw [top_k, List.length_take,
      (List.perm_insertionSort salesDesc _).length_eq,
      length_year_data_eq_regions hkeys]
  · rw [bottom_k, List.length_take,
      (List.perm_insertionSort salesAsc _).length_eq,
      length_year_data_eq_regions hkeys]
  · intro c
    refine filter_insertionSort ?_ _
    intro a b ha hb
    have h1 : a.sales = c := by simpa using ha
    have h2 : b.sales = c := by simpa using hb
    simp [salesDesc, h1, h2]
  · intro c
    refine filter_insertionSort ?_ _
    intro a b ha hb
    have h1 : a.sales = c := by simpa using ha
    have h2 : b.sales = c := by simpa using hb
    simp [salesAsc, h1, h2]

theorem c4_witness :
    (∀ r ∈ top_k tieDf 2015 2, r.year = 2015) ∧
    (∀ r ∈ bottom_k tieDf 2015 2, r.year = 2015) ∧
    List.Sorted salesDesc (top_k tieDf 2015 2) ∧
    List.Sorted salesAsc (bottom_k tieDf 2015 2) ∧
    (top_k tieDf 2015 2).length = min 2 (regionsWithData tieDf 2015).length ∧
    (bottom_k tieDf 2015 2).length = min 2 (regionsWithData tieDf 2015).length ∧
    (∀ c : ℚ,
      (List.insertionSort salesDesc (year_data tieDf 2015)).filter (fun r => r.sales == c)
        = (year_data tieDf 2015).filter (fun r => r.sales == c)) ∧
    (∀ c : ℚ,
      (List.insertionSort salesAsc (year_data tieDf 2015)).filter (fun r => r.sales == c)
        = (year_data tieDf 2015).filter (fun r => r.sales == c)) :=
  c4_top_bottom_k tieDf 2015 2 (by decide)


/-! ## Claims C5, C6, C10 -/

theorem head?_map_const {α β : Type _} {l : List α} {a : α} (f : α → β) (s : β)
    (hmem : a ∈ l) (hall : ∀ x ∈ l, f x = s) : (l.map f).head? = some s := by
  cases l with
  | nil => cases hmem
  | cons x xs => simp [hall x (List.mem_cons_self x xs)]

/-- C5: the summary scalars.  `current` is the sales value of the selected
region at the selected year (when that record exists and is the unique one
for the pair); `max`/`min` are the greatest/least sales over all of the
region's years; `average` is their sum divided by their count; and on the
specification's worked example (Goa, current year 2015) the four scalars
are 450, 475, 500 and 450. -/
theorem c5_summary_statistics :
    (∀ (df : List Record) (y : Int) (state : String) (s : ℚ),
      (⟨state, y, s⟩ : Record) ∈ df →
      (∀ r ∈ df, r.region = state → r.year = y → r.sales = s) →
      current_year_sales df y state = some s) ∧
    (∀ (df : List Record) (state : String) (q : ℚ), max_sales df state = some q →
      q ∈ stateSales df state ∧ ∀ x ∈ stateSales df state, x ≤ q) ∧
    (∀ (df : List Record) (state : String) (q : ℚ), min_sales df state = some q →
      q ∈ stateSales df state ∧ ∀ x ∈ stateSales df state, q ≤ x) ∧
    (∀ (df : List Record) (state : String), stateSales df state ≠ [] →
      avg_sales df state
        = some ((stateSales df state).sum / (stateSales df state).length)) ∧
    (current_year_sales goaDf 2015 "Goa" = some 450 ∧
      avg_sales goaDf "Goa" = some 475 ∧
      max_sales goaDf "Goa" = some 500 ∧ min_sales goaDf "Goa" = some 450) := by
  refine ⟨?_, ?_, ?_, ?_, ?_, ?_, ?_, ?_⟩
  · intro df y state s hmem huniq
    have hmemf : (⟨state, y, s⟩ : Record) ∈
        (year_data df y).filter (fun r => r.region == state) := by
      simp only [year_data, List.mem_filter]
      exact ⟨⟨hmem, by simp⟩, by simp⟩
    refine head?_map_const Record.sales s hmemf ?_
    intro x hx
    have hx1 := List.mem_filter.mp hx
    have hx2 := List.mem_filter.mp hx1.1
    refine huniq x hx2.1 (by simpa using hx1.2) (by simpa [year_data] using hx2.2)
  · intro df state q h
    rw [max_sales, List.max?_eq_some_iff le_refl max_choice
      (fun a b c => max_le_iff)] at h
    exact h
  · intro df state q h
    rw [min_sales, List.min?_eq_some_iff le_refl min_choice
      (fun a b c => le_min_iff)] at h
    exact h
  · intro df state h
    rcases he : stateSales df state with _ | ⟨a, l⟩
    · exact absurd he h
    · rw [avg_sales, he]
  · rfl
  · show avg_sales goaDf "Goa" = some 475
    have h : stateSales goaDf "Goa" = [500, 450] := rfl
    rw [avg_sales, h]
    norm_num
  · rfl
  · rfl

theorem c5_witness : current_year_sales goaDf 2015 "Goa" = some 450 :=
  c5_summary_statistics.1 goaDf 2015 "Goa" 450 (by decide) (by decide)

/-- C6: the `current` metric is missing — `.values[0]` raises an
`IndexError` — exactly when the selected region has no record for the
selected year; a present record always yields its (possibly zero) value. -/
theorem c6_current_none_iff_no_record (df : List Record) (y : Int) (state : String) :
    current_year_sales df y state = none ↔
      ∀ r ∈ df, ¬(r.region = state ∧ r.year = y) := by
  rw [current_year_sales, List.head?_eq_none_iff, List.map_eq_nil_iff,
    year_data, List.filter_filter, List.filter_eq_nil_iff]
  constructor
  · intro h r hr hcon
    exact h r hr (by simp [hcon.1, hcon.2])
  · intro h r hr hcon
    have := h r hr
    simp only [Bool.and_eq_true, beq_iff_eq] at hcon
    exact this ⟨hcon.1, hcon.2⟩

/-- C10: the growth computation pivots on Year × region, which fails — a
`ValueError` about duplicate index entries — exactly when two records of
the long table share a (region, year) key; with unique keys it always
succeeds. -/
theorem c10_pivot_fails_iff_duplicate_keys (df : List Record) (state : String) :
    selected_state_growth df state = none ↔ ¬(df.map recKey).Nodup := by
  by_cases h : (df.map recKey).Nodup <;>
    simp [selected_state_growth, pivotOk, h]


/-! ## Claims C7 and C8: year-over-year growth -/

theorem ffillAux_replicate_none (c : Option ℚ) (m : Nat) (v : List (Option ℚ)) :
    ffillAux c (List.replicate m none ++ v) = List.replicate m c ++ ffillAux c v := by
  induction m with
  | zero => rfl
  | succ n ih => simp [List.replicate_succ, ffillAux, ih]

theorem ffillAux_map_some (c : Option ℚ) (l : List ℚ) :
    ffillAux c (l.map some) = l.map some := by
  induction l generalizing c with
  | nil => rfl
  | cons x xs ih => simp [ffillAux, ih]

theorem pctAux_replicate_none (k : Nat) (w : List (Option ℚ)) :
    pctAux none (List.replicate k none ++ w) = List.replicate k none ++ pctOfFilled w := by
  induction k with
  | zero =>
    cases w with
    | nil => rfl
    | cons x rest => simp [pctAux, pctOfFilled]
  | succ n ih => simp [List.replicate_succ, pctAux, ih]

theorem pctOfFilled_replicate_none (m : Nat) (w : List (Option ℚ)) :
    pctOfFilled (List.replicate m none ++ w)
      = List.replicate m none ++ pctOfFilled w := by
  cases m with
  | zero => rfl
  | succ n =>
    simp only [List.replicate_succ, List.cons_append, pctOfFilled]
    rw [pctAux_replicate_none]
    rfl

theorem pctAux_map_some (p : ℚ) (l : List ℚ) :
    pctAux (some p) (l.map some) = (diffList p l).map some := by
  induction l generalizing p with
  | nil => rfl
  | cons c cs ih => simp [pctAux, diffList, ih]

theorem filterMap_zip_replicate_none (a : List Int) (m : Nat) :
    ((a.zip (List.replicate m (none : Option ℚ))).filterMap
      fun p => p.2.map (fun g => (p.1, g))) = [] := by
  induction a generalizing m with
  | nil => simp
  | cons x xs ih =>
    cases m with
    | zero => simp
    | succ n => simp [List.replicate_succ, List.zip_cons_cons, ih]

theorem filterMap_zip_map_some (a : List Int) (b : List ℚ) :
    ((a.zip (b.map some)).filterMap fun p => p.2.map (fun g => (p.1, g)))
      = a.zip b := by
  induction a generalizing b with
  | nil => simp
  | cons x xs ih =>
    cases b with
    | nil => simp
    | cons y ys => simp [List.zip_cons_cons, ih]

theorem yoyOf_cons_zip (ys : List Int) (ss : List ℚ) (y0 : Int) (s0 : ℚ)
    (h : ys.length = ss.length) :
    yoyOf ((y0, s0) :: ys.zip ss)
      = ys.zip ((diffList s0 ss).map (fun g => g * 100)) := by
  induction ys generalizing ss y0 s0 with
  | nil =>
    have : ss = [] := by
      cases ss
      · rfl
      · simp at h
    subst this
    rfl
  | cons y1 yr ih =>
    cases ss with
    | nil => simp at h
    | cons s1 sr =>
      simp only [List.zip_cons_cons, yoyOf, diffList, List.map_cons]
      exact congrArg _ (ih sr y1 s1 (by simpa using h))


theorem growthSeries_shape (col : List (Int × Option ℚ)) (m : Nat)
    (preYears regionYears : List Int) (regionSales : List ℚ)
    (hfst : col.map Prod.fst = preYears ++ regionYears)
    (hsnd : col.map Prod.snd = List.replicate m none ++ regionSales.map some)
    (hm : preYears.length = m)
    (hlen : regionYears.length = regionSales.length) :
    growthSeries col = yoyOf (regionYears.zip regionSales) := by
  have e1 : Option.map (fun g : ℚ => g * 100) none = none := rfl
  unfold growthSeries pct_change ffill
  rw [hfst, hsnd, ffillAux_replicate_none, ffillAux_map_some,
    pctOfFilled_replicate_none]
  cases regionSales with
  | nil =>
    have hry : regionYears = [] := List.length_eq_zero.mp (by simp [hlen])
    subst hry
    have e2 : pctOfFilled ([] : List (Option ℚ)) = [] := rfl
    rw [List.map_nil, List.append_nil, e2, List.append_nil, List.map_replicate,
      e1, filterMap_zip_replicate_none]
    rfl
  | cons s0 rest =>
    rcases regionYears with _ | ⟨y0, yr⟩
    · simp at hlen
    have hyr : yr.length = rest.length := by simpa using hlen
    rw [List.map_cons, pctOfFilled, pctAux_map_some]
    rw [List.map_append, List.map_replicate, e1]
    rw [List.zip_append (by simp [hm])]
    rw [List.filterMap_append, filterMap_zip_replicate_none, List.nil_append]
    rw [List.map_cons, e1, List.map_map]
    have hcomp : (Option.map fun g : ℚ => g * 100) ∘ some
        = some ∘ (fun g : ℚ => g * 100) := rfl
    rw [hcomp, ← List.map_map, List.zip_cons_cons, List.filterMap_cons,
      filterMap_zip_map_some, List.zip_cons_cons,
      yoyOf_cons_zip yr rest y0 s0 hyr]
    rfl


theorem pctAux_getElem?_some (prev : Option ℚ) (rest : List (Option ℚ))
    (i : Nat) (x : ℚ) (h : (pctAux prev rest)[i]? = some (some x)) :
    ∃ pq, (prev :: rest)[i]? = some (some pq) := by
  induction rest generalizing prev i with
  | nil => simp [pctAux] at h
  | cons cur rs ih =>
    cases i with
    | zero =>
      cases prev with
      | none =>
        rcases cur with _ | c <;> simp [pctAux] at h
      | some p => exact ⟨p, rfl⟩
    | succ j =>
      obtain ⟨pq, hpq⟩ := ih cur j (by simpa [pctAux] using h)
      exact ⟨pq, by simpa using hpq⟩

theorem ffillAux_getElem?_some (c : Option ℚ) (v : List (Option ℚ)) (j : Nat)
    (q : ℚ) (h : (ffillAux c v)[j]? = some (some q)) :
    (∃ j2, j2 ≤ j ∧ ∃ q2, v[j2]? = some (some q2)) ∨ c = some q := by
  induction v generalizing c j with
  | nil => simp [ffillAux] at h
  | cons x rest ih =>
    cases x with
    | none =>
      cases j with
      | zero => exact Or.inr (by simpa [ffillAux] using h)
      | succ j1 =>
        rcases ih c j1 (by simpa [ffillAux] using h) with ⟨j2, hle, q2, hq2⟩ | hc
        · exact Or.inl ⟨j2 + 1, by omega, q2, by simpa using hq2⟩
        · exact Or.inr hc
    | some xq =>
      cases j with
      | zero => exact Or.inl ⟨0, le_refl 0, xq, by simp⟩
      | succ j1 =>
        rcases ih (some xq) j1 (by simpa [ffillAux] using h) with ⟨j2, hle, q2, hq2⟩ | hc
        · exact Or.inl ⟨j2 + 1, by omega, q2, by simpa using hq2⟩
        · exact Or.inl ⟨0, by omega, xq, by simp⟩

theorem pct_change_getElem?_some (v : List (Option ℚ)) (i : Nat) (x : ℚ)
    (h : (pct_change v)[i]? = some (some x)) :
    ∃ j, j < i ∧ ∃ q2, v[j]? = some (some q2) := by
  unfold pct_change at h
  rcases hf : ffill v with _ | ⟨f0, frest⟩
  · rw [hf] at h
    simp [pctOfFilled] at h
  · rw [hf] at h
    cases i with
    | zero => simp [pctOfFilled] at h
    | succ i1 =>
      have h2 : (pctAux f0 frest)[i1]? = some (some x) := by
        simpa [pctOfFilled] using h
      obtain ⟨pq, hpq⟩ := pctAux_getElem?_some f0 frest i1 x h2
      have h3 : (ffill v)[i1]? = some (some pq) := by rw [hf]; exact hpq
      rcases ffillAux_getElem?_some none v i1 pq h3 with ⟨j2, hle, q2, hq2⟩ | hc
      · exact ⟨j2, by omega, q2, hq2⟩
      · exact absurd hc (by simp)

theorem pivotCol_map_fst (df : List Record) (state : String) :
    (pivotCol df state).map Prod.fst = tableYears df := by
  rw [pivotCol, List.map_map]
  have hid : (Prod.fst ∘ fun y : Int => (y, lookupSales df state y)) = id := rfl
  rw [hid, List.map_id]

theorem pivotCol_map_snd (df : List Record) (state : String) :
    (pivotCol df state).map Prod.snd
      = (tableYears df).map (fun y => lookupSales df state y) := by
  simp [pivotCol, List.map_map]

theorem tableYears_sorted (df : List Record) :
    List.Sorted (fun a b : Int => a ≤ b) (tableYears df) :=
  List.sorted_insertionSort _ _

theorem tableYears_nodup (df : List Record) : (tableYears df).Nodup :=
  ((List.perm_insertionSort _ _).nodup_iff).mpr (List.nodup_dedup _)

theorem growth_mem_has_earlier (df : List Record) (state : String) (y : Int)
    (g : ℚ) (h : (y, g) ∈ (selected_state_growth df state).getD []) :
    ∃ r ∈ df, r.region = state ∧ r.year < y := by
  by_cases hpiv : pivotOk df
  case neg => simp [selected_state_growth, hpiv] at h
  case pos =>
    have hmem : (y, g) ∈ growthSeries (pivotCol df state) := by
      simpa [selected_state_growth, hpiv] using h
    unfold growthSeries at hmem
    obtain ⟨p, hp, hpe⟩ := List.mem_filterMap.mp hmem
    rcases p with ⟨p1, p2⟩
    rcases p2 with _ | gq
    · simp at hpe
    have hpe2 : (some (p1, gq) : Option (Int × ℚ)) = some (y, g) := hpe
    have hy : p1 = y := congrArg Prod.fst (Option.some.inj hpe2)
    subst hy
    obtain ⟨i, hi⟩ := List.mem_iff_getElem?.mp hp
    rw [List.getElem?_zip_eq_some] at hi
    obtain ⟨hfst, hsnd⟩ := hi
    rw [List.getElem?_map] at hsnd
    rcases hpc : (pct_change ((pivotCol df state).map Prod.snd))[i]? with _ | o
    · rw [hpc] at hsnd; simp at hsnd
    rw [hpc] at hsnd
    cases o with
    | none => simp at hsnd
    | some gg =>
      obtain ⟨j, hji, q2, hq2⟩ :=
        pct_change_getElem?_some ((pivotCol df state).map Prod.snd) i gg hpc
      rw [pivotCol_map_snd, List.getElem?_map] at hq2
      rcases hty : (tableYears df)[j]? with _ | yj
      · rw [hty] at hq2; simp at hq2
      rw [hty] at hq2
      have hq3 : lookupSales df state yj = some q2 := Option.some.inj hq2
      rw [lookupSales] at hq3
      rcases hfind : (df.find? fun r => r.region == state && r.year == yj) with _ | r0
      · rw [hfind] at hq3; simp at hq3
      have hr0mem : r0 ∈ df := List.mem_of_find?_eq_some hfind
      have hr0p := List.find?_some hfind
      have hr0reg : r0.region = state := by
        have := hr0p
        simp only [Bool.and_eq_true, beq_iff_eq] at this
        exact this.1
      have hr0yr : r0.year = yj := by
        have := hr0p
        simp only [Bool.and_eq_true, beq_iff_eq] at this
        exact this.2
      -- y is the table year at index i
      rw [pivotCol_map_fst] at hfst
      -- bounds and strictness
      obtain ⟨hilen, hival⟩ := List.getElem?_eq_some_iff.mp hfst
      obtain ⟨hjlen, hjval⟩ := List.getElem?_eq_some_iff.mp hty
      have hle : (tableYears df)[j] ≤ (tableYears df)[i] := by
        have := List.pairwise_iff_getElem.mp (tableYears_sorted df) j i hjlen hilen hji
        exact this
      have hne : (tableYears df)[j] ≠ (tableYears df)[i] := by
        intro hcon
        have := (List.Nodup.getElem_inj_iff (tableYears_nodup df)).mp hcon
        omega
      refine ⟨r0, hr0mem, hr0reg, ?_⟩
      have hival2 : (tableYears df)[i] = p1 := hival
      omega


/-- C7 as stated is false on the code: on a region with a gap in its year
series (`gapDfA`: region A has 2015 and 2017 but not 2016, which other
regions cover), the growth output is not the year-over-year series of the
region's own sorted records — pandas' forward-fill inserts an extra entry
for the missing year. -/
theorem c7_gap_counterexample :
    selected_state_growth gapDfA "A" ≠ some (yoyOf (regionSeries gapDfA "A")) := by
  intro hcon
  have h1 : selected_state_growth gapDfA "A"
      = some [(2016, ((100:ℚ) - 100) / 100 * 100),
              (2017, ((150:ℚ) - 100) / 100 * 100)] := rfl
  have h2 : yoyOf (regionSeries gapDfA "A")
      = [(2017, ((150:ℚ) - 100) / 100 * 100)] := rfl
  rw [h1, h2] at hcon
  simp at hcon

/-- C7 amended: (1) for a region whose pivot column is some missing years
followed by exactly its own year-sorted series (no interior or trailing
gaps), the growth output is precisely the spec's series: for each record
with a predecessor, `(year, (cur - prev) / prev * 100)`, the earliest year
omitted; (2) in general every output year lies strictly after one of the
region's data years — so the region's earliest year never appears; (3) two
adjacent years with sales 100 then 150 yield growth 50. -/
theorem c7_yoy_growth :
    (∀ (df : List Record) (state : String) (m : Nat)
      (preYears regionYears : List Int) (regionSales : List ℚ),
      (df.map recKey).Nodup →
      (pivotCol df state).map Prod.fst = preYears ++ regionYears →
      (pivotCol df state).map Prod.snd
        = List.replicate m none ++ regionSales.map some →
      preYears.length = m →
      regionYears.length = regionSales.length →
      regionYears.zip regionSales = regionSeries df state →
      selected_state_growth df state = some (yoyOf (regionSeries df state))) ∧
    (∀ (df : List Record) (state : String) (y : Int) (g : ℚ),
      (y, g) ∈ (selected_state_growth df state).getD [] →
      ∃ r ∈ df, r.region = state ∧ r.year < y) ∧
    selected_state_growth adjDf "X" = some [(2016, 50)] := by
  refine ⟨?_, growth_mem_has_earlier, ?_⟩
  · intro df state m preYears regionYears regionSales hkeys hfst hsnd hm hlen hseries
    have hpiv : pivotOk df = true := by
      rw [pivotOk]
      exact decide_eq_true hkeys
    rw [selected_state_growth, if_pos hpiv, ← hseries,
      growthSeries_shape (pivotCol df state) m preYears regionYears regionSales
        hfst hsnd hm hlen]
  · have h1 : selected_state_growth adjDf "X"
        = some [(2016, ((150:ℚ) - 100) / 100 * 100)] := rfl
    rw [h1]
    norm_num

theorem c7_witness :
    selected_state_growth adjDf "X" = some (yoyOf (regionSeries adjDf "X")) :=
  c7_yoy_growth.1 adjDf "X" 0 [] [2015, 2016] [100, 150]
    (by decide) (by decide) (by decide) (by decide) (by decide) (by decide)

/-- C8 as stated is false on the code: on `gapDfB` (region A present in
2015 and 2017 but not 2016, which region B covers) the growth output does
contain an entry for the missing year 2016. -/
theorem c8_missing_year_gets_entry :
    ((selected_state_growth gapDfB "A").getD []).any (fun p => p.1 == 2016) = true := by
  decide

/-- C8 amended: on a gapped series, `pct_change`'s default forward-fill
makes the two present years effectively adjacent — growth at the next
present year is computed against the last present value (here
(300-200)/200 = 50%) — but the missing year also receives a growth entry
of 0.0 instead of being omitted. -/
theorem c8_gap_growth_forward_filled :
    selected_state_growth gapDfB "A" = some [(2016, 0), (2017, 50)] := by
  have h1 : selected_state_growth gapDfB "A"
      = some [(2016, ((200:ℚ) - 200) / 200 * 100),
              (2017, ((300:ℚ) - 200) / 200 * 100)] := rfl
  rw [h1]
  norm_num


end EconData
